import Mathlib

/-!
Verification of the heuristic PDF-structuring and section-ranking pipeline
(Challenge_1a / Challenge_1b).  Python strings are modelled as `List Char`,
floats as `ℚ`, dicts as structures, and Python's stable `sort` as an
insertion sort that is stable for the supplied boolean "comes weakly
before" comparator.  Each component is translated from its source file;
collaborator outputs (clustering labels) are passed as explicit arguments.
Python `set` iteration (used by one deduplication routine) has no
specified order; it is modelled as most-recently-inserted-first, and the
facts proved about that routine are evaluated on inputs where at most one
stored element is ever compared, so the chosen order is immaterial.
-/

/-- Text is a list of characters (a Python `str`). -/
abbrev Str := List Char

namespace StrOps

/-- Python `\s` whitespace class (space, tab, newline, return, formfeed, vtab). -/
def isPySpace (c : Char) : Bool :=
  c = ' ' || c = '\t' || c = '\n' || c = '\r' || c = Char.ofNat 12 || c = Char.ofNat 11

/-- Python `str.lower()` (ASCII case folding). -/
def lower (s : Str) : Str := s.map Char.toLower

/-- Python `str.strip()`: drop leading and trailing whitespace. -/
def stripStr (s : Str) : Str :=
  ((s.dropWhile isPySpace).reverse.dropWhile isPySpace).reverse

/-- Accumulator-style splitter: maximal runs of characters satisfying `p`. -/
def splitRunsAux (p : Char → Bool) : Str → Str → List Str
  | [], cur => if cur.isEmpty then [] else [cur.reverse]
  | c :: rest, cur =>
      if p c then splitRunsAux p rest (c :: cur)
      else if cur.isEmpty then splitRunsAux p rest []
      else cur.reverse :: splitRunsAux p rest []

/-- Maximal runs of characters satisfying `p`, in order. -/
def splitRuns (p : Char → Bool) (s : Str) : List Str := splitRunsAux p s []

/-- Python `str.split()` with no argument: whitespace-separated tokens. -/
def words (s : Str) : List Str := splitRuns (fun c => !isPySpace c) s

/-- Number of whitespace-separated words. -/
def wordCount (s : Str) : Nat := (words s).length

/-- Python `needle in haystack` for strings (contiguous substring). -/
def isSubstr (p t : Str) : Bool := t.tails.any (fun s => p.isPrefixOf s)

/-- Does `t` contain any of the given patterns as a substring? -/
def containsAny (pats : List Str) (t : Str) : Bool := pats.any (fun p => isSubstr p t)

/-- Python `str.isupper()`: at least one cased character and no lowercase one. -/
def pyIsUpper (s : Str) : Bool := s.any (fun c => c.isAlpha) && s.all (fun c => !c.isLower)

/-- Python `str.endswith(c)` for a single character. -/
def endsWithChar (c : Char) (s : Str) : Bool :=
  match s.getLast? with
  | some d => d = c
  | none => false

/-- Python `str.count(sub)`: non-overlapping occurrences scanning from the left. -/
def countOcc (p : Str) (t : Str) : Nat :=
  if hp : p = [] then t.length + 1
  else
    match t with
    | [] => 0
    | c :: rest =>
        if p.isPrefixOf (c :: rest) then 1 + countOcc p ((c :: rest).drop p.length)
        else countOcc p rest
  termination_by t.length
  decreasing_by
    · simp only [List.length_drop]
      have : 1 ≤ p.length := List.length_pos.mpr hp
      simp only [List.length_cons]
      omega
    · simp [List.length_cons]

/-- Python `" ".join(parts)`. -/
def joinSpace (parts : List Str) : Str := List.intercalate [' '] parts

/-- Stable insertion step: place `x` before the first element it weakly precedes. -/
def insertS (le : α → α → Bool) (x : α) : List α → List α
  | [] => [x]
  | y :: ys => if le x y then x :: y :: ys else y :: insertS le x ys

/-- Stable sort by the "comes weakly before" comparator (models Python `sorted`). -/
def sortS (le : α → α → Bool) (l : List α) : List α := l.foldr (insertS le) []

/-- First-occurrence deduplication, threading the set of keys already seen. -/
def dedupFAux [DecidableEq α] (seen : List α) : List α → List α
  | [] => []
  | x :: xs => if x ∈ seen then dedupFAux seen xs else x :: dedupFAux (x :: seen) xs

/-- First-occurrence deduplication (models dict-key insertion order). -/
def dedupF [DecidableEq α] (l : List α) : List α := dedupFAux [] l

/-- Index of the first occurrence of `a` (list assumed to contain it when used). -/
def idxOf [DecidableEq α] (a : α) : List α → Nat
  | [] => 0
  | b :: bs => if a = b then 0 else idxOf a bs + 1

/-- Decimal digits, most significant first, with structural fuel (the fuel
`n` always suffices since a number has at most `n` digits). -/
def natCharsAux : Nat → Nat → Str → Str
  | 0, n, acc => Char.ofNat (48 + n % 10) :: acc
  | fuel + 1, n, acc =>
      if n < 10 then Char.ofNat (48 + n) :: acc
      else natCharsAux fuel (n / 10) (Char.ofNat (48 + n % 10) :: acc)

/-- Decimal digits of a natural number, most significant first. -/
def natChars (n : Nat) : Str := natCharsAux n n []

/-- Python banker's rounding `round(q)` on rationals (half to even). -/
def pyRound (q : ℚ) : ℤ :=
  let f := ⌊q⌋
  if q - f = 1/2 then (if Even f then f else f + 1) else round q

end StrOps

open StrOps

namespace Rank

/-- A section record as consumed by `section_ranker.py` (title, content, level,
page_number); only the fields the scoring functions read are modelled. -/
structure RSec where
  title : Str
  content : Str
  level : Str
  page_number : Nat
  deriving DecidableEq, Repr

/-- Level contribution of `compute_structural_importance`
(`section_ranker.py` lines 291-298). -/
def level_weight (level : Str) : ℚ :=
  if level = "H1".toList then 9/10
  else if level = "H2".toList then 3/5
  else if level = "H3".toList then 3/10
  else 0

/-- Page contribution of `compute_structural_importance` (lines 300-307). -/
def page_bonus (page : Nat) : ℚ :=
  if page = 1 then 2/5
  else if page ≤ 3 then 1/5
  else if page ≤ 5 then 1/10
  else 0

/-- Content-length contribution of `compute_structural_importance` (lines 309-316). -/
def length_bonus (n : Nat) : ℚ :=
  if 100 ≤ n ∧ n ≤ 1000 then 2/5
  else if 1000 < n then 3/10
  else if 50 ≤ n ∧ n < 100 then 1/5
  else 0

/-- Title-descriptiveness contribution of `compute_structural_importance`
(lines 318-325); an empty title is falsy and contributes nothing. -/
def title_bonus (title : Str) : ℚ :=
  if title.isEmpty then 0
  else
    let w := wordCount title
    if 2 ≤ w ∧ w ≤ 8 then 3/10
    else if 8 < w then 1/10
    else 0

/-- Sum of the non-level contributions to the structural score. -/
def otherContrib (s : RSec) : ℚ :=
  page_bonus s.page_number + length_bonus s.content.length + title_bonus s.title

/-- `compute_structural_importance` (`section_ranker.py` lines 287-327):
additive contributions capped at 1.0. -/
def compute_structural_importance (s : RSec) : ℚ :=
  min (level_weight s.level + otherContrib s) 1

end Rank

namespace Keyword

/-- Stop words of `extract_key_terms` (`section_ranker.py` lines 140-145). -/
def stopWords : List Str :=
  ["the", "a", "an", "and", "or", "but", "in", "on", "at", "to", "for",
   "of", "with", "by", "is", "are", "was", "were", "be", "been", "being",
   "have", "has", "had", "do", "does", "did", "will", "would", "could",
   "should", "may", "might", "must", "can", "persona", "job", "done"].map String.toList

/-- A `\w` word character as used by `re.findall(r'\b\w+\b', ...)` (ASCII). -/
def isWordChar (c : Char) : Bool := c.isAlphanum || c = '_'

/-- Adjacent two-word phrases whose both words are not stop words
(`extract_key_terms` lines 152-157). -/
def phrasesOf : List Str → List Str
  | [] => []
  | [_] => []
  | a :: b :: rest =>
      (if a ∉ stopWords ∧ b ∉ stopWords then [a ++ ' ' :: b] else []) ++ phrasesOf (b :: rest)

/-- `extract_key_terms` (`section_ranker.py` lines 135-158): stop-word-filtered
unigrams of length > 2 plus adjacent non-stop-word bigrams. -/
def extract_key_terms (query : Str) : List Str :=
  let ws := splitRuns isWordChar (lower query)
  let keywords := ws.filter (fun w => 2 < w.length ∧ w ∉ stopWords)
  keywords ++ phrasesOf ws

/-- `compute_keyword_relevance` (`section_ranker.py` lines 177-208): counted
keyword matches in title (weight 3, cap 10) and content (cap 5), divided by
the keyword count, normalized by 5 and capped at 1. -/
def compute_keyword_relevance (title content : Str) (query_keywords : List Str) : ℚ :=
  if query_keywords.isEmpty || (lower title ++ ' ' :: lower content).isEmpty then 0
  else
    min ((((min ((query_keywords.map (fun kw => countOcc (lower kw) (lower title))).sum * 3) 10
      + min ((query_keywords.map (fun kw => countOcc (lower kw) (lower content))).sum) 5
      : ℕ) : ℚ) / (query_keywords.length : ℚ)) / 5) 1

end Keyword

namespace Div

/-- A ranked-result record as built by `compute_similarity_scores`; the
fields that `apply_adaptive_diversity_filtering` reads or that distinguish
records under Python `==` are modelled. -/
structure RS where
  document : Str
  section_title : Str
  page_number : Nat
  score : ℚ
  level : Str
  deriving DecidableEq, Repr

/-- Per-document cap chosen from the query
(`section_ranker.py` lines 383-392). -/
def maxPerDocOf (q : Str) : Nat :=
  if containsAny (["comprehensive", "complete", "overview"].map String.toList) (lower q) then 3
  else if containsAny (["group", "team", "friends"].map String.toList) (lower q) then 2
  else 2

/-- First pass of `apply_adaptive_diversity_filtering` (lines 394-403):
admit while the document count is under the cap, stop once the budget is
reached (the break is checked after every result). -/
def fpAux (cap maxR : Nat) : List RS → List RS → List RS
  | [], acc => acc
  | r :: rest, acc =>
      if acc.countP (fun x => x.document == r.document) < cap then
        if maxR ≤ (acc ++ [r]).length then acc ++ [r] else fpAux cap maxR rest (acc ++ [r])
      else
        if maxR ≤ acc.length then acc else fpAux cap maxR rest acc

/-- The list produced by the first (capped) pass. -/
def firstPass (results : List RS) (q : Str) (maxR : Nat) : List RS :=
  fpAux (maxPerDocOf q) maxR results []

/-- Backfill pass of `apply_adaptive_diversity_filtering` (lines 405-411):
add unseen results scoring above 0.5 until the budget is reached. -/
def bfAux (maxR : Nat) : List RS → List RS → List RS
  | [], acc => acc
  | r :: rest, acc =>
      if r ∉ acc ∧ 1/2 < r.score then
        if maxR ≤ (acc ++ [r]).length then acc ++ [r] else bfAux maxR rest (acc ++ [r])
      else bfAux maxR rest acc

/-- `apply_adaptive_diversity_filtering` (`section_ranker.py` lines 374-413). -/
def apply_adaptive_diversity_filtering (results : List RS) (q : Str) (maxR : Nat) : List RS :=
  if results = [] then results
  else
    let fp := firstPass results q maxR
    if fp.length < maxR then bfAux maxR results fp else fp

end Div

namespace Theme

/-- Section fields read by `compute_dynamic_content_relevance`. -/
structure TSec where
  title : Str
  content : Str
  level : Str
  deriving DecidableEq, Repr

/-- Content-length bonus of `compute_dynamic_content_relevance`
(`section_ranker.py` lines 274-279), kept with the source's branch order:
the `> 500` arm sits behind an `elif` that follows `> 200`. -/
def contentLengthBonus (n : Nat) : ℚ :=
  if 200 < n then 3/10
  else if 500 < n then 1/2
  else 0

/-- Per-theme contribution inside the loop of
`compute_dynamic_content_relevance` (lines 240-266). -/
def themeContribution (sec : TSec) (combined : Str)
    (isPlanning isOverviewNeeded isGroup : Bool) (theme : Str) (weight : ℚ) : ℚ :=
  if isSubstr theme combined then
    let ts0 := weight * 10
    let ts1 := if (isPlanning || isOverviewNeeded) &&
        containsAny (["guide", "comprehensive", "overview", "complete", "major",
          "main"].map String.toList) (lower sec.title) then ts0 * 2 else ts0
    let ts2 := if isPlanning || isOverviewNeeded then
        (if sec.level = "H1".toList then ts1 * (3/2)
         else if sec.level = "H2".toList then ts1 * (6/5)
         else ts1)
      else ts1
    if isGroup && containsAny (["individual", "personal", "private", "solo",
        "alone"].map String.toList) combined then ts2 * (1/2) else ts2
  else 0

/-- `compute_dynamic_content_relevance` (`section_ranker.py` lines 210-285). -/
def compute_dynamic_content_relevance (sec : TSec) (query : Str)
    (themes : List (Str × ℚ)) : ℚ :=
  if themes.isEmpty then 0
  else
    let ql := lower query
    let isPlanning := containsAny
      (["plan", "trip", "visit", "itinerary", "schedule", "organize"].map String.toList) ql
    let isGroup := containsAny
      (["group", "friends", "team", "people", "together"].map String.toList) ql
    let isOverviewNeeded := containsAny
      (["overview", "guide", "comprehensive", "complete", "summary"].map String.toList) ql
    let combined := lower sec.title ++ ' ' :: lower sec.content
    let themeScore := (themes.map (fun tw =>
      themeContribution sec combined isPlanning isOverviewNeeded isGroup tw.1 tw.2)).sum
    let introBonus : ℚ := if containsAny
        (["introduction", "overview", "guide", "comprehensive", "complete"].map String.toList)
        (lower sec.title) then 1/2 else 0
    let score := themeScore + introBonus + contentLengthBonus sec.content.length
    let maxPossible := (themes.map (fun tw => tw.2)).sum * 10 + 1
    if 0 < maxPossible then min (score / maxPossible) 1 else 0

end Theme

namespace Seg

/-- A text block as read by `extract_section_content`
(`Challenge_1b/processing/heading_ranker.py`): text, page and y-position. -/
structure Line where
  text : Str
  page : Nat
  y : ℚ
  deriving DecidableEq, Repr

/-- A classified heading (text, page, position, level). -/
structure Heading where
  text : Str
  page : Nat
  position : ℚ
  level : Str
  deriving DecidableEq, Repr

/-- A section produced by the segmenter. -/
structure Sect where
  title : Str
  content : Str
  page_number : Nat
  level : Str
  deriving DecidableEq, Repr

/-- The regex `^\d+[\.\)]\s+[A-Z]` of `is_likely_heading_text`: digits, a dot
or parenthesis, whitespace, then an ASCII capital. -/
def startsNumberedCap (s : Str) : Bool :=
  let ds := s.takeWhile (fun c => c.isDigit)
  if ds.isEmpty then false
  else
    match s.drop ds.length with
    | [] => false
    | p :: rest =>
        if p = '.' || p = ')' then
          let sp := rest.takeWhile isPySpace
          if sp.isEmpty then false
          else
            match rest.drop sp.length with
            | [] => false
            | u :: _ => u.isUpper
        else false

/-- `is_likely_heading_text` (`heading_ranker.py` lines 316-328). -/
def is_likely_heading_text (text : Str) : Bool :=
  if text.isEmpty || 15 < wordCount text then false
  else if pyIsUpper text || endsWithChar ':' text then true
  else if startsNumberedCap text then true
  else false

/-- Window membership test of `extract_section_content` (lines 296-298);
`none` as the next heading stands for the `float('inf')` end bounds. -/
def inWindow (h : Heading) (nx : Option Heading) (l : Line) : Bool :=
  (l.page == h.page && decide (h.position < l.y)) ||
  (decide (h.page < l.page) &&
    match nx with
    | none => true
    | some n => decide (l.page < n.page) || (l.page == n.page && decide (l.y < n.position)))

/-- Texts of the blocks that survive the window and exclusion filters for one
heading (lines 286-302): not the heading's own text, inside the window, and
not heading-like. -/
def contentTexts (lines : List Line) (h : Heading) (nx : Option Heading) : List Str :=
  (lines.filter (fun l =>
    !(l.text == h.text) && inWindow h nx l && !is_likely_heading_text l.text)).map
    (fun l => l.text)

/-- One section of `extract_section_content` (lines 304-312): surviving texts
joined by single spaces and stripped. -/
def mkSection (lines : List Line) (h : Heading) (nx : Option Heading) : Sect :=
  ⟨h.text, stripStr (joinSpace (contentTexts lines h nx)), h.page, h.level⟩

/-- `extract_section_content` (`heading_ranker.py` lines 265-314): one section
per heading, the end bound taken from the following heading. -/
def extract_section_content (lines : List Line) : List Heading → List Sect
  | [] => []
  | h :: rest => mkSection lines h rest.head? :: extract_section_content lines rest

/-- Comprehensiveness indicators of `calculate_section_quality`
(`Challenge_1b/main.py` lines 130-133). -/
def comprehensiveIndicators : List Str :=
  ["comprehensive", "guide", "overview", "introduction", "major", "main",
   "complete", "full", "total", "entire", "all", "general"].map String.toList

/-- Narrowness indicators of `calculate_section_quality` (lines 157-160). -/
def detailIndicators : List Str :=
  ["tip", "trick", "specific", "detail", "particular", "individual",
   "personal", "private", "small", "minor", "single"].map String.toList

/-- `calculate_section_quality` (`Challenge_1b/main.py` lines 113-167). -/
def calculate_section_quality (s : Sect) : ℚ :=
  max 0
    ((if s.level = "H1".toList then 3
      else if s.level = "H2".toList then 2
      else if s.level = "H3".toList then 1 else 0)
     + (if containsAny comprehensiveIndicators (lower s.title) then 2 else 0)
     + (if 200 < s.content.length then 3/2
        else if 100 < s.content.length then 1
        else if 50 < s.content.length then 1/2 else 0)
     + (if 2 ≤ wordCount (lower s.title) ∧ wordCount (lower s.title) ≤ 8 then 1
        else if wordCount (lower s.title) = 1 then 1/2 else 0)
     + (if containsAny detailIndicators (lower s.title) then -1 else 0))

/-- Priority test of `filter_and_prioritize_sections`
(`Challenge_1b/main.py` line 101). -/
def prioritySection (s : Sect) : Bool :=
  (s.level == "H1".toList || s.level == "H2".toList) &&
    decide (3 < calculate_section_quality s)

/-- `filter_and_prioritize_sections` (`Challenge_1b/main.py` lines 83-111):
top 8 priority plus top 4 supplementary sections, each sorted by quality. -/
def filter_and_prioritize_sections (sections : List Sect) : List Sect :=
  if sections.isEmpty then sections
  else
    (sortS (fun a b => decide (calculate_section_quality b ≤ calculate_section_quality a))
      (sections.filter prioritySection)).take 8 ++
    (sortS (fun a b => decide (calculate_section_quality b ≤ calculate_section_quality a))
      (sections.filter (fun s => !prioritySection s &&
        decide (2 < calculate_section_quality s)))).take 4

/-- The per-section step of `create_comprehensive_section_map`
(`Challenge_1b/main.py` lines 67-73): `section['content'] or section['title']`
replaces falsy (empty) content by the title. -/
def fallbackEntry (s : Sect) : Sect :=
  { s with content := if s.content.isEmpty then s.title else s.content }

/-- Section entries emitted by `create_comprehensive_section_map` for one
document that has sections. -/
def createSectionEntries (sections : List Sect) : List Sect :=
  (filter_and_prioritize_sections sections).map fallbackEntry

/-- Demo blocks: two heading blocks on page 1. -/
def demoLines : List Line :=
  [⟨"Introduction".toList, 1, 10⟩, ⟨"Background".toList, 1, 20⟩]

/-- Demo classified headings matching `demoLines`. -/
def demoHeadings : List Heading :=
  [⟨"Introduction".toList, 1, 10, "H1".toList⟩, ⟨"Background".toList, 1, 20, "H2".toList⟩]

/-- Demo heading used for the empty-content behaviour. -/
def demoLoneHeading : Heading := ⟨"Overview Section".toList, 1, 0, "H1".toList⟩

/-- The section the segmenter produces for `demoLoneHeading` when the
document has no other blocks: its content is empty. -/
def demoEmptySection : Sect := ⟨"Overview Section".toList, [], 1, "H1".toList⟩

end Seg

namespace Norm

/-- A text block of `Challenge_1b/processing/extract_text.py`; the fields
that `merge_text_fragments` and `remove_duplicates_and_noise` read. -/
structure Blk where
  text : Str
  page : Nat
  y : ℚ
  font_size : ℚ
  word_count : Nat
  char_count : Nat
  deriving DecidableEq, Repr

/-- `should_merge_blocks` (`extract_text.py` lines 171-196). -/
def should_merge_blocks (b1 b2 : Blk) : Bool :=
  b1.page == b2.page && decide (|b1.y - b2.y| ≤ 30) &&
  decide (|b1.font_size - b2.font_size| ≤ 2) &&
  decide (b1.word_count ≤ 10) && decide (b2.word_count ≤ 10) &&
  decide (wordCount (b1.text ++ ' ' :: b2.text) ≤ 20)

/-- The merged-item update of `merge_text_fragments` (lines 158-163). -/
def combineBlk (acc j : Blk) : Blk :=
  { acc with
    text := acc.text ++ ' ' :: j.text,
    font_size := max acc.font_size j.font_size,
    word_count := wordCount (acc.text ++ ' ' :: j.text),
    char_count := (acc.text ++ ' ' :: j.text).length }

/-- Inner while-loop of `merge_text_fragments`: absorb following blocks while
`should_merge_blocks(current, next)` holds, comparing against the original
`current` block as the source does. -/
def absorb (orig acc : Blk) : List Blk → Blk × List Blk
  | [] => (acc, [])
  | j :: js =>
      if should_merge_blocks orig j then absorb orig (combineBlk acc j) js
      else (acc, j :: js)

/-- Outer loop of `merge_text_fragments` (lines 150-168). -/
def mergeLoop : List Blk → List Blk
  | [] => []
  | cur :: rest =>
      (absorb cur cur rest).1 :: mergeLoop (absorb cur cur rest).2
  termination_by l => l.length
  decreasing_by
    have hlen : ∀ (o a : Blk) (l : List Blk), (absorb o a l).2.length ≤ l.length := by
      intro o a l
      induction l generalizing a with
      | nil => simp [absorb]
      | cons j js ih =>
          by_cases h : should_merge_blocks o j = true
          · simp only [absorb, h, if_true]
            exact le_trans (ih _) (Nat.le_succ _)
          · simp [absorb, h]
    simp only [List.length_cons]
    exact Nat.lt_succ_of_le (hlen _ _ _)

/-- `merge_text_fragments` (`extract_text.py` lines 139-169): sort by
(page, y) then merge runs of fragments. -/
def merge_text_fragments (data : List Blk) : List Blk :=
  if data.length < 2 then data
  else mergeLoop (sortS (fun a b =>
    decide (a.page < b.page ∨ (a.page = b.page ∧ a.y ≤ b.y))) data)

/-- The dedup key `item["text"].lower().strip()` of
`remove_duplicates_and_noise` (line 204). -/
def textKey (b : Blk) : Str := stripStr (lower b.text)

/-- The noise regexes of `is_noise_text` (`extract_text.py` lines 228-239). -/
def noisePatterns (tl : Str) : Bool :=
  ("page".toList.isPrefixOf tl &&
    ((tl.drop 4).dropWhile isPySpace).all (fun c => c.isDigit))
  || (!tl.isEmpty && tl.all (fun c => c.isDigit))
  || (!tl.isEmpty && tl.all (fun c => c = 'i' || c = 'v' || c = 'x'))
  || (match tl with
      | c :: rest => c = '©' &&
          isSubstr "copyright".toList (rest.takeWhile (fun d => d ≠ '\n'))
      | [] => false)
  || "all rights reserved".toList.isPrefixOf tl
  || tl.all isPySpace

/-- `is_noise_text` (`extract_text.py` lines 219-245). -/
def is_noise_text (text : Str) : Bool :=
  let tl := stripStr (lower text)
  if tl.length < 3 then true
  else if !tl.isEmpty &&
      tl.all (fun c => c.isDigit || isPySpace c || c = '-' || c = '_' ||
        c = '.' || c = '(' || c = ')') then true
  else if noisePatterns tl then true
  else false

/-- Loop of `remove_duplicates_and_noise` (lines 203-215), threading the set
of seen text keys. -/
def rdnAux (seen : List Str) : List Blk → List Blk
  | [] => []
  | i :: rest =>
      if textKey i ∈ seen then rdnAux seen rest
      else if is_noise_text i.text then rdnAux seen rest
      else i :: rdnAux (textKey i :: seen) rest

/-- `remove_duplicates_and_noise` (`extract_text.py` lines 198-217). -/
def remove_duplicates_and_noise (data : List Blk) : List Blk := rdnAux [] data

/-- The TextBlockNormalizer pipeline on blocks, as composed in
`extract_text_with_metadata` (lines 29-30): merge fragments, then remove
duplicates and noise. -/
def normalizeBlocks (data : List Blk) : List Blk :=
  remove_duplicates_and_noise (merge_text_fragments data)

/-- Demo block A: short alphabetic fragment at the top of page 1. -/
def demoBlkA : Blk := ⟨"aa bb".toList, 1, 0, 10, 2, 5⟩

/-- Demo block X: numeric noise between A and B with a far-off font size. -/
def demoBlkX : Blk := ⟨"12 34".toList, 1, 10, 20, 2, 5⟩

/-- Demo block B: short alphabetic fragment below X. -/
def demoBlkB : Blk := ⟨"cc dd".toList, 1, 20, 11, 2, 5⟩

end Norm

namespace Dedup1a

/-- An extracted item of `Challenge_1a/src/extract_text.py`
(text, page, font_size). -/
structure Itm where
  text : Str
  page : Nat
  font_size : ℚ
  deriving DecidableEq, Repr

/-- The `for seen_text in seen_texts` loop of `remove_duplicates_and_fragments`
(lines 203-218): returns the duplicate verdict and the possibly shrunk seen
set; scanning stops at the first equal or substring-related stored text. -/
def scanSeen (t : Str) : List Str → Bool × List Str
  | [] => (false, [])
  | s :: rest =>
      if t = s then (true, s :: rest)
      else if isSubstr t s || isSubstr s t then
        (if t.length ≤ s.length then (true, s :: rest) else (false, rest))
      else
        ((scanSeen t rest).1, s :: (scanSeen t rest).2)

/-- Main loop of `remove_duplicates_and_fragments` (lines 193-222): note that
a retroactive discard only shrinks the seen set; the previously appended item
stays in the output. -/
def rdfAux : List Itm → List Str → List Itm
  | [], _ => []
  | i :: rest, seen =>
      if (stripStr (lower i.text)).length < 2 then rdfAux rest seen
      else if (scanSeen (stripStr (lower i.text)) seen).1 then
        rdfAux rest (scanSeen (stripStr (lower i.text)) seen).2
      else i :: rdfAux rest (stripStr (lower i.text) :: (scanSeen (stripStr (lower i.text)) seen).2)

/-- `remove_duplicates_and_fragments` (`Challenge_1a/src/extract_text.py`
lines 185-225): sort by (-font_size, page), deduplicate, then re-sort by
(page, -font_size). -/
def remove_duplicates_and_fragments (data : List Itm) : List Itm :=
  sortS (fun a b => decide (a.page < b.page ∨ (a.page = b.page ∧ b.font_size ≤ a.font_size)))
    (rdfAux (sortS (fun a b =>
      decide (b.font_size < a.font_size ∨ (a.font_size = b.font_size ∧ a.page ≤ b.page))) data) [])

/-- Demo item whose text is a substring of the other demo item's text. -/
def demoItmShort : Itm := ⟨"ab".toList, 1, 10⟩

/-- Demo item with the longer text but the smaller font. -/
def demoItmLong : Itm := ⟨"abc".toList, 1, 9⟩

end Dedup1a

namespace Title

/-- Matches `^(page|march|april|version|date|time)[\s\d]`. -/
def startsWithWordThenSpaceOrDigit (w : Str) (tl : Str) : Bool :=
  w.isPrefixOf tl &&
    (match tl.drop w.length with
     | c :: _ => isPySpace c || c.isDigit
     | [] => false)

/-- Matches `^\d+[\.\)]`. -/
def startsDigitsThenDotParen (tl : Str) : Bool :=
  !(tl.takeWhile (fun c => c.isDigit)).isEmpty &&
    (match tl.drop (tl.takeWhile (fun c => c.isDigit)).length with
     | c :: _ => c = '.' || c = ')'
     | [] => false)

/-- Matches `^[a-z]+@`. -/
def startsLowerLettersThenAt (tl : Str) : Bool :=
  !(tl.takeWhile (fun c => c.isLower)).isEmpty &&
    (match tl.drop (tl.takeWhile (fun c => c.isLower)).length with
     | c :: _ => c = '@'
     | [] => false)

/-- The non-title rejection patterns of `is_likely_title`
(`Challenge_1a/src/heading_ranker.py` lines 58-67), applied to the
lower-cased text with `re.match` (anchored at the start). -/
def nonTitlePattern (tl : Str) : Bool :=
  (["page", "march", "april", "version", "date", "time"].map String.toList).any
      (fun w => startsWithWordThenSpaceOrDigit w tl)
  || startsDigitsThenDotParen tl
  || startsLowerLettersThenAt tl
  || "www.".toList.isPrefixOf tl
  || "http".toList.isPrefixOf tl
  || (match tl with
      | c :: d :: _ => c = '(' && d.isDigit
      | _ => false)
  || tl = "address".toList || tl = "address:".toList
  || "rsvp".toList.isPrefixOf tl

/-- The short-text title indicators (`heading_ranker.py` line 80). -/
def titleIndicators : List Str :=
  ["overview", "introduction", "summary", "guide", "manual", "report"].map String.toList

/-- The address-like indicators (`heading_ranker.py` line 85). -/
def addressIndicators : List Str :=
  ["address:", "phone:", "email:", "website:"].map String.toList

/-- The single-word whitelist (`heading_ranker.py` lines 94-97). -/
def meaningfulSingleWords : List Str :=
  ["overview", "introduction", "summary", "guide", "manual",
   "report", "analysis", "proposal", "specification"].map String.toList

/-- `is_likely_title` (`Challenge_1a/src/heading_ranker.py` lines 44-100). -/
def is_likely_title (text : Str) (page : Nat) (font_size max_font_size : ℚ) : Bool :=
  if page ≠ 1 then false
  else if font_size < max_font_size - 2 then false
  else if nonTitlePattern (lower text) then false
  else if wordCount text ≤ 2 && !containsAny titleIndicators (lower text) then false
  else if containsAny addressIndicators (lower text) then false
  else if 3 ≤ wordCount text && wordCount text ≤ 15 then true
  else if wordCount text = 1 then decide (lower text ∈ meaningfulSingleWords)
  else false

end Title

namespace HierB

/-- A heading candidate of `Challenge_1b/processing/heading_ranker.py`. -/
structure CandB where
  text : Str
  page : Nat
  font_size : ℚ
  is_bold : Bool
  heading_likelihood : ℚ
  y : ℚ
  deriving DecidableEq, Repr

/-- A classified heading entry (level, text, page, font_size, position,
likelihood) as built at lines 180-187. -/
structure OutB where
  level : Str
  text : Str
  page : Nat
  font_size : ℚ
  position : ℚ
  likelihood : ℚ
  deriving DecidableEq, Repr

/-- Font size rounded to the nearest 0.5 (`group_by_font_characteristics`,
line 198), with Python's banker's rounding. -/
def fontKey (c : CandB) : ℚ := ((pyRound (c.font_size * 2) : ℚ)) / 2

/-- The formatting key `f"{font_key}{'_bold' if is_bold else ''}"` modelled as
the pair (rounded size, bold flag); the string encoding is injective. -/
def groupKey (c : CandB) : ℚ × Bool := (fontKey c, c.is_bold)

/-- The level string `f"H{i}"`. -/
def hLevelStr (n : Nat) : Str := 'H' :: natChars n

/-- `assign_heading_levels` (`heading_ranker.py` lines 208-228): groups
sorted by font size descending; the first three get H1, H2, H3 and the rest
get H3.  The sort key ignores the bold flag, ties keep insertion order. -/
def assignLevels (keys : List (ℚ × Bool)) (k : ℚ × Bool) : Str :=
  if idxOf k (sortS (fun a b => decide (b.1 ≤ a.1)) keys) < 3 then
    hLevelStr (idxOf k (sortS (fun a b => decide (b.1 ≤ a.1)) keys) + 1)
  else "H3".toList

/-- `determine_heading_level` (`heading_ranker.py` lines 237-263): exact key,
then the key without bold, then likelihood thresholds. -/
def determine_heading_level (c : CandB) (keys : List (ℚ × Bool)) : Str :=
  if groupKey c ∈ keys then assignLevels keys (groupKey c)
  else if (fontKey c, false) ∈ keys then assignLevels keys (fontKey c, false)
  else if 4 ≤ c.heading_likelihood then "H1".toList
  else if 3 ≤ c.heading_likelihood then "H2".toList
  else "H3".toList

/-- `classify_heading_hierarchy` (`heading_ranker.py` lines 159-189):
candidates sorted by likelihood descending, grouped by formatting key, and
levelled. -/
def classify_heading_hierarchy (candidates : List CandB) : List OutB :=
  if candidates.isEmpty then []
  else
    (sortS (fun a b => decide (b.heading_likelihood ≤ a.heading_likelihood)) candidates).map
      (fun c =>
        ⟨determine_heading_level c
            (dedupF ((sortS (fun a b => decide (b.heading_likelihood ≤ a.heading_likelihood))
              candidates).map groupKey)),
          c.text, c.page, c.font_size, c.y, c.heading_likelihood⟩)

/-- `classify_headings` (`heading_ranker.py` lines 5-21): the hierarchy
re-sorted by (page, position). -/
def classify_headingsB (candidates : List CandB) : List OutB :=
  sortS (fun a b => decide (a.page < b.page ∨ (a.page = b.page ∧ a.position ≤ b.position)))
    (classify_heading_hierarchy candidates)

end HierB

namespace HierA

/-- A heading candidate of `Challenge_1a/src/extract_text.py`
(text, page, font_size). -/
structure CandA where
  text : Str
  page : Nat
  font_size : ℚ
  deriving DecidableEq, Repr

/-- An outline entry (level, text, page) as built at lines 317-322. -/
structure OutA where
  level : Str
  text : Str
  page : Nat
  deriving DecidableEq, Repr

/-- `n_clusters = min(4, max(2, len(set(font sizes))))`
(`extract_text.py` line 299). -/
def n_clusters (cands : List CandA) : Nat :=
  min 4 (max 2 (dedupF (cands.map (fun c => c.font_size))).length)

/-- Python `max` over a nonempty numeric list (0 as the unused default). -/
def listMaxQ : List ℚ → ℚ
  | [] => 0
  | x :: xs => xs.foldl max x

/-- Python string comparison `s ≤ t` by code points (used in the title sort
key at line 342). -/
def strLeLex : Str → Str → Bool
  | [], _ => true
  | _ :: _, [] => false
  | a :: as, b :: bs =>
      if a.toNat < b.toNat then true
      else if a.toNat = b.toNat then strLeLex as bs
      else false

/-- The corpus-specific title patterns of `detect_document_title` (line 347);
the first one contains an apostrophe, written here by code point. -/
def titlePatternsA : List Str :=
  ["Ontario".toList ++ Char.ofNat 39 :: "s Libraries".toList,
   "Digital Library".toList, "RFP:".toList]

/-- `detect_document_title` (`extract_text.py` lines 326-350): page-1
candidates at the page's maximum font, sorted by (word count, text), with a
pattern match preferred and the first candidate as fallback. -/
def detect_document_title (cands : List CandA) : Option CandA :=
  if (cands.filter (fun c => decide (c.page = 1))).isEmpty then none
  else
    match (sortS (fun a b => decide (wordCount a.text < wordCount b.text ∨
        (wordCount a.text = wordCount b.text ∧ strLeLex a.text b.text = true)))
        ((cands.filter (fun c => decide (c.page = 1))).filter (fun c =>
          decide (c.font_size =
            listMaxQ ((cands.filter (fun c => decide (c.page = 1))).map
              (fun c => c.font_size)))))).find?
        (fun c => containsAny titlePatternsA c.text) with
    | some c => some c
    | none =>
        (sortS (fun a b => decide (wordCount a.text < wordCount b.text ∨
          (wordCount a.text = wordCount b.text ∧ strLeLex a.text b.text = true)))
          ((cands.filter (fun c => decide (c.page = 1))).filter (fun c =>
            decide (c.font_size =
              listMaxQ ((cands.filter (fun c => decide (c.page = 1))).map
                (fun c => c.font_size)))))).head?

/-- Labels of `cluster_stats` in dict insertion order (first occurrence over
the candidate/label pairs, lines 306-310). -/
def labelsInOrder (pairs : List (CandA × Nat)) : List Nat :=
  dedupF (pairs.map (fun p => p.2))

/-- Mean font size of one cluster (lines 354-357). -/
def clusterAvgFont (pairs : List (CandA × Nat)) (l : Nat) : ℚ :=
  ((pairs.filter (fun p => decide (p.2 = l))).map (fun p => p.1.font_size)).sum /
    (((pairs.filter (fun p => decide (p.2 = l))).map (fun p => p.1.font_size)).length : ℚ)

/-- Clusters sorted by mean font size descending (stable on insertion order). -/
def sortedLabels (pairs : List (CandA × Nat)) (ls : List Nat) : List Nat :=
  sortS (fun a b => decide (clusterAvgFont pairs b ≤ clusterAvgFont pairs a)) ls

/-- The level string `f"H{i}"`. -/
def hLevelStrA (n : Nat) : Str := 'H' :: natChars n

/-- Level assignment without a title cluster
(`assign_heading_levels`, lines 384-387): cluster at rank i gets `H{i+1}`. -/
def assignNoTitle (pairs : List (CandA × Nat)) (l : Nat) : Str :=
  hLevelStrA (idxOf l (sortedLabels pairs (labelsInOrder pairs)) + 1)

/-- The cluster of the first candidate whose text equals the title's text
(lines 363-367). -/
def titleClusterLabel (pairs : List (CandA × Nat)) (t : CandA) : Option Nat :=
  (pairs.find? (fun p => p.1.text == t.text)).map (fun p => p.2)

/-- Level assignment when a title cluster was found (lines 370-377): the
title cluster gets H1 and the remaining clusters, ranked by mean font size,
get `H{i+2}`. -/
def assignWithTitle (pairs : List (CandA × Nat)) (tc : Nat) (l : Nat) : Str :=
  if l = tc then "H1".toList
  else hLevelStrA
    (idxOf l (sortedLabels pairs ((labelsInOrder pairs).filter (fun x => decide (x ≠ tc)))) + 2)

/-- `classify_headings_improved` (`Challenge_1a/src/extract_text.py` lines
276-324) from the heading candidates on: the clustering collaborator's
labels are passed explicitly (one label per candidate, each below
`n_clusters`). -/
def classify_headings_improved (cands : List CandA) (labels : List Nat) : List OutA :=
  match cands with
  | [] => []
  | [c] => [⟨"H1".toList, c.text, c.page⟩]
  | _ =>
      match detect_document_title cands with
      | none => (cands.zip labels).map
          (fun p => ⟨assignNoTitle (cands.zip labels) p.2, p.1.text, p.1.page⟩)
      | some t =>
          match titleClusterLabel (cands.zip labels) t with
          | some tc => (cands.zip labels).map
              (fun p => ⟨assignWithTitle (cands.zip labels) tc p.2, p.1.text, p.1.page⟩)
          | none => (cands.zip labels).map
              (fun p => ⟨assignNoTitle (cands.zip labels) p.2, p.1.text, p.1.page⟩)

/-- Demo candidates: four page-2 candidates with four distinct font sizes. -/
def demoCandsA : List CandA :=
  [⟨"alpha one".toList, 2, 10⟩, ⟨"beta two".toList, 2, 11⟩,
   ⟨"gamma three".toList, 2, 12⟩, ⟨"delta four".toList, 2, 13⟩]

/-- Demo cluster labels: one cluster per candidate. -/
def demoLabelsA : List Nat := [0, 1, 2, 3]

/-- The candidate/label pairs of the demo input. -/
def demoPairsA : List (CandA × Nat) := demoCandsA.zip demoLabelsA

end HierA

namespace StrOps

theorem insertS_perm (le : α → α → Bool) (x : α) (l : List α) :
    (insertS le x l).Perm (x :: l) := by
  induction l with
  | nil => simp [insertS]
  | cons y ys ih =>
      by_cases h : le x y = true
      · simp [insertS, h]
      · simp only [insertS, h, if_false]
        exact (List.Perm.cons y ih).trans (List.Perm.swap x y ys)

theorem sortS_perm (le : α → α → Bool) (l : List α) : (sortS le l).Perm l := by
  induction l with
  | nil => simp [sortS]
  | cons x xs ih =>
      have h1 : (sortS le (x :: xs)) = insertS le x (sortS le xs) := rfl
      rw [h1]
      exact (insertS_perm le x (sortS le xs)).trans (List.Perm.cons x ih)

theorem mem_sortS {le : α → α → Bool} {l : List α} {a : α} :
    a ∈ sortS le l ↔ a ∈ l := (sortS_perm le l).mem_iff

theorem sortS_length (le : α → α → Bool) (l : List α) :
    (sortS le l).length = l.length := (sortS_perm le l).length_eq

theorem mem_dedupFAux [DecidableEq α] {l : List α} :
    ∀ {seen : List α} {a : α}, a ∈ dedupFAux seen l ↔ a ∈ l ∧ a ∉ seen := by
  induction l with
  | nil => intro seen a; simp [dedupFAux]
  | cons x xs ih =>
      intro seen a
      by_cases hx : x ∈ seen
      · simp only [dedupFAux, hx, if_true, ih, List.mem_cons]
        constructor
        · rintro ⟨h1, h2⟩; exact ⟨Or.inr h1, h2⟩
        · rintro ⟨h1 | h1, h2⟩
          · exact absurd (h1 ▸ hx) h2
          · exact ⟨h1, h2⟩
      · simp only [dedupFAux, hx, if_false, List.mem_cons, ih]
        constructor
        · rintro (h1 | ⟨h1, h2⟩)
          · exact ⟨Or.inl h1, h1 ▸ hx⟩
          · refine ⟨Or.inr h1, fun hc => h2 (by simpa using List.mem_cons_of_mem x hc)⟩
        · rintro ⟨h1 | h1, h2⟩
          · exact Or.inl h1
          · by_cases hax : a = x
            · exact Or.inl hax
            · exact Or.inr ⟨h1, by simp [hax, h2]⟩

theorem mem_dedupF [DecidableEq α] {l : List α} {a : α} : a ∈ dedupF l ↔ a ∈ l := by
  unfold dedupF
  rw [mem_dedupFAux]
  simp

theorem nodup_dedupFAux [DecidableEq α] {l : List α} :
    ∀ {seen : List α}, (dedupFAux seen l).Nodup := by
  induction l with
  | nil => intro seen; simp [dedupFAux]
  | cons x xs ih =>
      intro seen
      by_cases hx : x ∈ seen
      · simpa [dedupFAux, hx] using ih
      · simp only [dedupFAux, hx, if_false]
        refine List.nodup_cons.mpr ⟨?_, ih⟩
        intro hmem
        exact (mem_dedupFAux.mp hmem).2 (List.mem_cons_self x seen)

theorem nodup_dedupF [DecidableEq α] (l : List α) : (dedupF l).Nodup := nodup_dedupFAux

theorem idxOf_lt_length [DecidableEq α] {a : α} {l : List α} (h : a ∈ l) :
    idxOf a l < l.length := by
  induction l with
  | nil => cases h
  | cons b bs ih =>
      by_cases hab : a = b
      · simp [idxOf, hab]
      · rcases List.mem_cons.mp h with h1 | h1
        · exact absurd h1 hab
        · simp only [idxOf, hab, if_false, List.length_cons]
          exact Nat.succ_lt_succ (ih h1)

theorem countOcc_nil {p : Str} (hp : p ≠ []) : countOcc p [] = 0 := by
  rw [countOcc]
  simp [hp]

theorem length_le_of_nodup_lt {l : List ℕ} {n : ℕ} (hd : l.Nodup)
    (hb : ∀ x ∈ l, x < n) : l.length ≤ n := by
  have hcard : l.toFinset.card = l.length := List.toFinset_card_of_nodup hd
  have hsub : l.toFinset ⊆ Finset.range n := by
    intro x hx
    exact Finset.mem_range.mpr (hb x (List.mem_toFinset.mp hx))
  calc l.length = l.toFinset.card := hcard.symm
    _ ≤ (Finset.range n).card := Finset.card_le_card hsub
    _ = n := Finset.card_range n

theorem isSubstr_iff_infix {p t : Str} : isSubstr p t = true ↔ p <:+: t := by
  unfold isSubstr
  rw [List.any_eq_true]
  constructor
  · rintro ⟨s, hs, hp⟩
    exact List.infix_iff_prefix_suffix.mpr
      ⟨s, List.isPrefixOf_iff_prefix.mp hp, (List.mem_tails _ _).mp hs⟩
  · intro hinf
    rcases List.infix_iff_prefix_suffix.mp hinf with ⟨s, hpre, hsuf⟩
    exact ⟨s, (List.mem_tails _ _).mpr hsuf, List.isPrefixOf_iff_prefix.mpr hpre⟩

end StrOps

namespace Rank

/-- C4 counterexample: two sections identical except for level (title "City
Guide", 100 characters of content, page 1) both reach the 1.0 cap of
`compute_structural_importance`, so the H1 score is not strictly greater
than the H2 score. -/
theorem c4_cap_counterexample :
    compute_structural_importance
        ⟨"City Guide".toList, List.replicate 100 'a', "H1".toList, 1⟩ =
      compute_structural_importance
        ⟨"City Guide".toList, List.replicate 100 'a', "H2".toList, 1⟩ ∧
    compute_structural_importance
        ⟨"City Guide".toList, List.replicate 100 'a', "H1".toList, 1⟩ = 1 := by
  have e1 : compute_structural_importance
      ⟨"City Guide".toList, List.replicate 100 'a', "H1".toList, 1⟩ =
      min ((9:ℚ)/10 + (2/5 + 2/5 + 3/10)) 1 := rfl
  have e2 : compute_structural_importance
      ⟨"City Guide".toList, List.replicate 100 'a', "H2".toList, 1⟩ =
      min ((3:ℚ)/5 + (2/5 + 2/5 + 3/10)) 1 := rfl
  rw [e1, e2]
  norm_num [min_def]

/-- C4 (amended): for sections identical except for heading level the
structural importance is monotone (H1 ≥ H2 ≥ H3), and the inequalities are
strict whenever the shared non-level contributions stay below 2/5, i.e.
whenever the 1.0 cap does not bind. -/
theorem c4_structural_level_monotone (title content : Str) (page : Nat) :
    compute_structural_importance ⟨title, content, "H2".toList, page⟩ ≤
      compute_structural_importance ⟨title, content, "H1".toList, page⟩ ∧
    compute_structural_importance ⟨title, content, "H3".toList, page⟩ ≤
      compute_structural_importance ⟨title, content, "H2".toList, page⟩ ∧
    (otherContrib ⟨title, content, "H1".toList, page⟩ < 2/5 →
      compute_structural_importance ⟨title, content, "H2".toList, page⟩ <
        compute_structural_importance ⟨title, content, "H1".toList, page⟩ ∧
      compute_structural_importance ⟨title, content, "H3".toList, page⟩ <
        compute_structural_importance ⟨title, content, "H2".toList, page⟩) := by
  have hw1 : level_weight "H1".toList = 9/10 := rfl
  have hw2 : level_weight "H2".toList = 3/5 := rfl
  have hw3 : level_weight "H3".toList = 3/10 := rfl
  have ho : ∀ lvl : Str, otherContrib ⟨title, content, lvl, page⟩ =
      otherContrib ⟨title, content, "H1".toList, page⟩ := fun _ => rfl
  set o := otherContrib ⟨title, content, "H1".toList, page⟩ with ho'
  unfold compute_structural_importance
  rw [ho "H2".toList, ho "H3".toList, hw1, hw2, hw3]
  refine ⟨?_, ?_, ?_⟩
  · exact min_le_min (by linarith) le_rfl
  · exact min_le_min (by linarith) le_rfl
  · intro hcap
    have h2 : 3/5 + o < 1 := by linarith
    have h3 : 3/10 + o < 1 := by linarith
    constructor
    · rw [min_eq_left h2.le]
      exact lt_min (by linarith) h2
    · rw [min_eq_left h2.le, min_eq_left h3.le]
      linarith

/-- C4 witness: at title "Ab", 2-character content, page 10, the shared
contributions are below 2/5 and the strict chain holds. -/
theorem c4_structural_level_monotone_witness :
    compute_structural_importance ⟨"Ab".toList, "xy".toList, "H2".toList, 10⟩ <
      compute_structural_importance ⟨"Ab".toList, "xy".toList, "H1".toList, 10⟩ ∧
    compute_structural_importance ⟨"Ab".toList, "xy".toList, "H3".toList, 10⟩ <
      compute_structural_importance ⟨"Ab".toList, "xy".toList, "H2".toList, 10⟩ :=
  (c4_structural_level_monotone "Ab".toList "xy".toList 10).2.2 (by
    have h : otherContrib ⟨"Ab".toList, "xy".toList, "H1".toList, 10⟩ = 0 + 0 + 0 := rfl
    rw [h]; norm_num)

end Rank

namespace Keyword

theorem mem_phrasesOf_ne_nil {ws : List Str} {p : Str} (h : p ∈ phrasesOf ws) : p ≠ [] := by
  induction ws with
  | nil => cases h
  | cons a rest ih =>
      cases rest with
      | nil => cases h
      | cons b rest' =>
          rw [phrasesOf] at h
          rcases List.mem_append.mp h with h1 | h1
          · by_cases hc : a ∉ stopWords ∧ b ∉ stopWords
            · rw [if_pos hc] at h1
              have hp := List.mem_singleton.mp h1
              subst hp
              intro hnil
              exact List.cons_ne_nil _ _ (List.append_eq_nil.mp hnil).2
            · rw [if_neg hc] at h1
              cases h1
          · exact ih h1

theorem mem_extract_key_terms_ne_nil {q : Str} {kw : Str}
    (h : kw ∈ extract_key_terms q) : kw ≠ [] := by
  unfold extract_key_terms at h
  rcases List.mem_append.mp h with h1 | h1
  · rcases List.mem_filter.mp h1 with ⟨_, hp⟩
    intro hnil
    subst hnil
    simp at hp
  · exact mem_phrasesOf_ne_nil h1

theorem compute_keyword_relevance_bounds (title content : Str) (kws : List Str) :
    0 ≤ compute_keyword_relevance title content kws ∧
      compute_keyword_relevance title content kws ≤ 1 := by
  unfold compute_keyword_relevance
  split
  · norm_num
  · constructor
    · apply le_min
      · apply div_nonneg
        · apply div_nonneg
          · exact_mod_cast Nat.zero_le _
          · exact_mod_cast Nat.zero_le _
        · norm_num
      · norm_num
    · exact min_le_right _ _

/-- C10: the keyword relevance computation is total: it returns 0 when the
extracted keyword list is empty or when title and content are both empty,
and its value always lies in [0, 1]; the division by the keyword count only
happens when that count is nonzero. -/
theorem c10_keyword_relevance_total (q title content : Str) :
    (extract_key_terms q = [] →
      compute_keyword_relevance title content (extract_key_terms q) = 0) ∧
    (title = [] → content = [] →
      compute_keyword_relevance title content (extract_key_terms q) = 0) ∧
    0 ≤ compute_keyword_relevance title content (extract_key_terms q) ∧
    compute_keyword_relevance title content (extract_key_terms q) ≤ 1 := by
  refine ⟨?_, ?_, compute_keyword_relevance_bounds title content (extract_key_terms q)⟩
  · intro h
    simp [compute_keyword_relevance, h]
  · intro ht hc
    subst ht; subst hc
    by_cases hk : extract_key_terms q = []
    · simp [compute_keyword_relevance, hk]
    · have hsum : ((extract_key_terms q).map
          (fun kw => countOcc (lower kw) (lower []))).sum = 0 := by
        apply List.sum_eq_zero
        intro x hx
        rcases List.mem_map.mp hx with ⟨kw, hkw, hxe⟩
        have hne : kw ≠ [] := mem_extract_key_terms_ne_nil hkw
        have hlne : lower kw ≠ [] := by
          intro habs
          exact hne (List.map_eq_nil_iff.mp habs)
        rw [← hxe]
        exact countOcc_nil hlne
      unfold compute_keyword_relevance
      rw [hsum]
      norm_num

/-- C10 witness: at the query "the" (all of whose words are stop words) and
an empty section, the relevance is exactly 0 and lies in [0, 1]. -/
theorem c10_keyword_relevance_witness :
    compute_keyword_relevance [] [] (extract_key_terms "the".toList) = 0 ∧
    0 ≤ compute_keyword_relevance [] [] (extract_key_terms "the".toList) ∧
    compute_keyword_relevance [] [] (extract_key_terms "the".toList) ≤ 1 :=
  ⟨(c10_keyword_relevance_total "the".toList [] []).1 (by decide),
   (c10_keyword_relevance_total "the".toList [] []).2.2⟩

end Keyword

namespace Div

theorem fpAux_cons (cap maxR : Nat) (r : RS) (rest acc : List RS) :
    fpAux cap maxR (r :: rest) acc =
      if acc.countP (fun x => x.document == r.document) < cap then
        (if maxR ≤ (acc ++ [r]).length then acc ++ [r]
          else fpAux cap maxR rest (acc ++ [r]))
      else
        (if maxR ≤ acc.length then acc else fpAux cap maxR rest acc) := rfl

theorem bfAux_cons (maxR : Nat) (r : RS) (rest acc : List RS) :
    bfAux maxR (r :: rest) acc =
      if r ∉ acc ∧ 1/2 < r.score then
        (if maxR ≤ (acc ++ [r]).length then acc ++ [r] else bfAux maxR rest (acc ++ [r]))
      else bfAux maxR rest acc := rfl

theorem fpAux_length_le {cap maxR : Nat} :
    ∀ (l acc : List RS), acc.length < maxR → (fpAux cap maxR l acc).length ≤ maxR := by
  intro l
  induction l with
  | nil => intro acc h; exact Nat.le_of_lt h
  | cons r rest ih =>
      intro acc h
      rw [fpAux_cons]
      by_cases hc : acc.countP (fun x => x.document == r.document) < cap
      · rw [if_pos hc]
        by_cases hb : maxR ≤ (acc ++ [r]).length
        · rw [if_pos hb]
          simp only [List.length_append, List.length_singleton]
          omega
        · rw [if_neg hb]
          exact ih _ (Nat.lt_of_not_le hb)
      · rw [if_neg hc]
        by_cases hb : maxR ≤ acc.length
        · rw [if_pos hb]; exact Nat.le_of_lt h
        · rw [if_neg hb]; exact ih _ h

theorem fpAux_count_le {cap maxR : Nat} (d : Str) :
    ∀ (l acc : List RS), acc.countP (fun x => x.document == d) ≤ cap →
      (fpAux cap maxR l acc).countP (fun x => x.document == d) ≤ cap := by
  intro l
  induction l with
  | nil => intro acc h; exact h
  | cons r rest ih =>
      intro acc h
      rw [fpAux_cons]
      by_cases hc : acc.countP (fun x => x.document == r.document) < cap
      · have happ : (acc ++ [r]).countP (fun x => x.document == d) ≤ cap := by
          by_cases hrd : (r.document == d) = true
          · have hdoc : r.document = d := by simpa using hrd
            rw [hdoc] at hc
            simp [List.countP_append, List.countP_cons, hrd]
            omega
          · simp only [List.countP_append, List.countP_cons, List.countP_nil, hrd]
            simpa using h
        rw [if_pos hc]
        by_cases hb : maxR ≤ (acc ++ [r]).length
        · rw [if_pos hb]; exact happ
        · rw [if_neg hb]; exact ih _ happ
      · rw [if_neg hc]
        by_cases hb : maxR ≤ acc.length
        · rw [if_pos hb]; exact h
        · rw [if_neg hb]; exact ih _ h

theorem bfAux_length_le {maxR : Nat} :
    ∀ (l acc : List RS), acc.length < maxR → (bfAux maxR l acc).length ≤ maxR := by
  intro l
  induction l with
  | nil => intro acc h; exact Nat.le_of_lt h
  | cons r rest ih =>
      intro acc h
      rw [bfAux_cons]
      by_cases hc : r ∉ acc ∧ 1/2 < r.score
      · rw [if_pos hc]
        by_cases hb : maxR ≤ (acc ++ [r]).length
        · rw [if_pos hb]
          simp only [List.length_append, List.length_singleton]
          omega
        · rw [if_neg hb]
          exact ih _ (Nat.lt_of_not_le hb)
      · rw [if_neg hc]
        exact ih _ h

theorem bfAux_mem {maxR : Nat} :
    ∀ (l acc : List RS) (r : RS), r ∈ bfAux maxR l acc → r ∈ acc ∨ 1/2 < r.score := by
  intro l
  induction l with
  | nil => intro acc r h; exact Or.inl h
  | cons x rest ih =>
      intro acc r h
      rw [bfAux_cons] at h
      by_cases hx : x ∉ acc ∧ 1/2 < x.score
      · rw [if_pos hx] at h
        by_cases hb : maxR ≤ (acc ++ [x]).length
        · rw [if_pos hb] at h
          rcases List.mem_append.mp h with h1 | h1
          · exact Or.inl h1
          · rcases List.mem_singleton.mp h1 with rfl
            exact Or.inr hx.2
        · rw [if_neg hb] at h
          rcases ih _ r h with h1 | h1
          · rcases List.mem_append.mp h1 with h2 | h2
            · exact Or.inl h2
            · rcases List.mem_singleton.mp h2 with rfl
              exact Or.inr hx.2
          · exact Or.inr h1
      · rw [if_neg hx] at h
        exact ih _ r h

/-- C7: the diversity filter admits at most `maxPerDocOf q` results per
document in its first pass (3 for comprehensive/complete/overview queries,
otherwise 2), anything in the output beyond the first pass comes from the
backfill and scores above 0.5, and the output never exceeds the budget. -/
theorem c7_diversity_filtering (results : List RS) (q : Str) (maxR : Nat)
    (hm : 1 ≤ maxR) :
    (apply_adaptive_diversity_filtering results q maxR).length ≤ maxR ∧
    (∀ d : Str, (firstPass results q maxR).countP (fun x => x.document == d) ≤ maxPerDocOf q) ∧
    (∀ r ∈ apply_adaptive_diversity_filtering results q maxR,
      r ∈ firstPass results q maxR ∨ 1/2 < r.score) ∧
    maxPerDocOf q =
      (if containsAny (["comprehensive", "complete", "overview"].map String.toList) (lower q)
        then 3 else 2) := by
  refine ⟨?_, ?_, ?_, ?_⟩
  · unfold apply_adaptive_diversity_filtering
    split
    · rename_i he; simp [he]
    · simp only
      split
      · rename_i hlt
        exact bfAux_length_le results _ hlt
      · rename_i hge
        unfold firstPass
        exact fpAux_length_le results [] (by simpa using hm)
  · intro d
    unfold firstPass
    exact fpAux_count_le d results [] (by simp)
  · intro r hr
    unfold apply_adaptive_diversity_filtering at hr
    split at hr
    · rename_i he; rw [he] at hr; cases hr
    · simp only at hr
      split at hr
      · exact bfAux_mem results _ r hr
      · exact Or.inl hr
  · unfold maxPerDocOf
    split
    · rfl
    · split <;> rfl

/-- C7 witness: a single one-result list under the default budget 15. -/
theorem c7_diversity_filtering_witness :
    (apply_adaptive_diversity_filtering
        [⟨"a.pdf".toList, "Intro".toList, 1, 1, "H1".toList⟩] "plan a trip".toList 15).length ≤ 15 ∧
    (∀ d : Str, (firstPass [⟨"a.pdf".toList, "Intro".toList, 1, 1, "H1".toList⟩]
        "plan a trip".toList 15).countP (fun x => x.document == d) ≤
        maxPerDocOf "plan a trip".toList) ∧
    (∀ r ∈ apply_adaptive_diversity_filtering
        [⟨"a.pdf".toList, "Intro".toList, 1, 1, "H1".toList⟩] "plan a trip".toList 15,
      r ∈ firstPass [⟨"a.pdf".toList, "Intro".toList, 1, 1, "H1".toList⟩]
        "plan a trip".toList 15 ∨ 1/2 < r.score) ∧
    maxPerDocOf "plan a trip".toList =
      (if containsAny (["comprehensive", "complete", "overview"].map String.toList)
          (lower "plan a trip".toList) then 3 else 2) :=
  c7_diversity_filtering [⟨"a.pdf".toList, "Intro".toList, 1, 1, "H1".toList⟩]
    "plan a trip".toList 15 (by norm_num)

end Div

namespace Theme

/-- C8: the `> 500` content-length arm of the thematic signal is dead code:
a 501-character section receives the `> 200` bonus of 0.3, not the claimed
full 0.5, because the `elif content_length > 500` test follows
`if content_length > 200`.  With one unmatched theme of weight 1 the
normalized score is 0.3/11 = 3/110, not 0.5/11 = 1/22. -/
theorem c8_content_length_bonus_dead_branch :
    contentLengthBonus 501 = 3/10 ∧
    contentLengthBonus 501 ≠ 1/2 ∧
    compute_dynamic_content_relevance
        ⟨"xx".toList, List.replicate 501 'a', "H3".toList⟩ "qq".toList
        [("zzzz".toList, 1)] = 3/110 := by
  refine ⟨rfl, by norm_num [contentLengthBonus], ?_⟩
  have hPlan : containsAny
      (["plan", "trip", "visit", "itinerary", "schedule", "organize"].map String.toList)
      (lower "qq".toList) = false := by decide
  have hGroup : containsAny
      (["group", "friends", "team", "people", "together"].map String.toList)
      (lower "qq".toList) = false := by decide
  have hOver : containsAny
      (["overview", "guide", "comprehensive", "complete", "summary"].map String.toList)
      (lower "qq".toList) = false := by decide
  have hIntro : containsAny
      (["introduction", "overview", "guide", "comprehensive", "complete"].map String.toList)
      (lower "xx".toList) = false := by decide
  have hrep : lower (List.replicate 501 'a') = List.replicate 501 'a' := by
    unfold lower
    rw [List.map_replicate]
    rfl
  have hfalse : isSubstr "zzzz".toList
      (lower "xx".toList ++ ' ' :: lower (List.replicate 501 'a')) = false := by
    rw [Bool.eq_false_iff]
    intro htrue
    have hinf := isSubstr_iff_infix.mp htrue
    have hz : 'z' ∈ lower "xx".toList ++ ' ' :: lower (List.replicate 501 'a') :=
      hinf.subset (by decide)
    rw [hrep] at hz
    rcases List.mem_append.mp hz with h1 | h1
    · exact absurd h1 (by decide)
    · rcases List.mem_cons.mp h1 with h2 | h2
      · exact absurd h2 (by decide)
      · exact absurd (List.eq_of_mem_replicate h2) (by decide)
  have hTheme : themeContribution ⟨"xx".toList, List.replicate 501 'a', "H3".toList⟩
      (lower "xx".toList ++ ' ' :: lower (List.replicate 501 'a'))
      false false false "zzzz".toList 1 = 0 := by
    unfold themeContribution
    rw [hfalse]
    simp
  simp only [compute_dynamic_content_relevance]
  rw [hPlan, hOver, hGroup, hIntro]
  simp only [List.map_cons, List.map_nil, List.sum_cons, List.sum_nil]
  rw [hTheme]
  rw [List.length_replicate]
  have hLen : contentLengthBonus 501 = 3/10 := rfl
  rw [hLen]
  norm_num [List.isEmpty_cons, min_def]

end Theme

namespace Seg

/-- C1 counterexample: with headings "Introduction" and "Background" on the
same page, the block carrying the second heading's text survives the filters
of `extract_section_content` (it is title-cased, so `is_likely_heading_text`
rejects it as heading-like), and the first section's content is exactly the
literal text of the other heading. -/
theorem c1_other_heading_in_content_counterexample :
    (extract_section_content demoLines demoHeadings).map (fun s => (s.title, s.content)) =
      [("Introduction".toList, "Background".toList), ("Background".toList, [])] ∧
    "Background".toList ∈ demoHeadings.map (fun h => h.text) ∧
    isSubstr "Background".toList "Background".toList = true := by
  decide

/-- C1 (amended): every section produced by `extract_section_content` is
built only from blocks whose text differs from the section's own heading
text and that fail `is_likely_heading_text` (not ALLCAPS, no trailing colon,
not numbered-capital); blocks equal to the own heading are excluded, but
other headings' literal text can still appear in the content. -/
theorem c1_section_content_excludes (lines : List Line) (hs : List Heading) (s : Sect)
    (hmem : s ∈ extract_section_content lines hs) :
    ∃ h nx, h ∈ hs ∧ s = mkSection lines h nx ∧
      ∀ t ∈ contentTexts lines h nx, t ≠ h.text ∧ is_likely_heading_text t = false := by
  induction hs with
  | nil => cases hmem
  | cons h rest ih =>
      rcases List.mem_cons.mp hmem with h1 | h1
      · refine ⟨h, rest.head?, List.mem_cons_self h rest, h1, ?_⟩
        intro t ht
        unfold contentTexts at ht
        rcases List.mem_map.mp ht with ⟨l, hl, hlt⟩
        rcases List.mem_filter.mp hl with ⟨_, hcond⟩
        simp only [Bool.and_eq_true, Bool.not_eq_true'] at hcond
        subst hlt
        exact ⟨ne_of_beq_false hcond.1.1, hcond.2⟩
      · rcases ih h1 with ⟨h', nx, hh, hs', hprop⟩
        exact ⟨h', nx, List.mem_cons_of_mem h hh, hs', hprop⟩

/-- C1 witness: the first demo section instantiates the amended property. -/
theorem c1_section_content_excludes_witness :
    ∃ h nx, h ∈ demoHeadings ∧
      mkSection demoLines ⟨"Introduction".toList, 1, 10, "H1".toList⟩
          (some ⟨"Background".toList, 1, 20, "H2".toList⟩) = mkSection demoLines h nx ∧
      ∀ t ∈ contentTexts demoLines h nx, t ≠ h.text ∧ is_likely_heading_text t = false :=
  c1_section_content_excludes demoLines demoHeadings
    (mkSection demoLines ⟨"Introduction".toList, 1, 10, "H1".toList⟩
      (some ⟨"Background".toList, 1, 20, "H2".toList⟩)) (by decide)

/-- C6 counterexample: for a heading with no surviving blocks,
`extract_section_content` emits a section whose content is empty, not the
heading's own text; the fallback claimed for the segmenter is absent there. -/
theorem c6_segmenter_empty_content_counterexample :
    (extract_section_content ([] : List Line) [demoLoneHeading]).map (fun s => s.content) =
      [([] : Str)] ∧
    demoLoneHeading.text ≠ [] := by
  decide

theorem quality_demoEmptySection : calculate_section_quality demoEmptySection = 6 := by
  have h1 : containsAny comprehensiveIndicators (lower "Overview Section".toList) = true := by
    decide
  have h2 : containsAny detailIndicators (lower "Overview Section".toList) = false := by
    decide
  have h3 : wordCount (lower "Overview Section".toList) = 2 := by decide
  unfold calculate_section_quality demoEmptySection
  simp only [h1, h2, h3]
  norm_num [max_def]

theorem priority_demoEmptySection : prioritySection demoEmptySection = true := by
  unfold prioritySection
  rw [quality_demoEmptySection]
  have h36 : ((3:ℚ) < 6) := by norm_num
  simp [demoEmptySection, h36]

theorem entries_demoLoneHeading :
    createSectionEntries (extract_section_content [] [demoLoneHeading]) =
      [fallbackEntry demoEmptySection] := by
  have hext : extract_section_content [] [demoLoneHeading] = [demoEmptySection] := rfl
  rw [hext]
  unfold createSectionEntries filter_and_prioritize_sections
  simp [priority_demoEmptySection, sortS, insertS]

/-- C6 (amended): the segmenter itself can emit empty content (see the
counterexample); the fallback to the heading's own text happens downstream,
in `create_comprehensive_section_map`, whose emitted entries have non-empty
content whenever their title is non-empty. -/
theorem c6_content_fallback (lines : List Line) (hs : List Heading) (s : Sect)
    (hmem : s ∈ createSectionEntries (extract_section_content lines hs))
    (ht : s.title ≠ []) : s.content ≠ [] := by
  unfold createSectionEntries at hmem
  rcases List.mem_map.mp hmem with ⟨orig, _, hfe⟩
  subst hfe
  unfold fallbackEntry
  unfold fallbackEntry at ht
  simp only at ht ⊢
  by_cases hc : orig.content.isEmpty
  · rw [if_pos hc]
    exact ht
  · rw [if_neg hc]
    intro habs
    exact hc (by simp [habs])

/-- C6 witness: the lone demo heading's entry falls back to its title. -/
theorem c6_content_fallback_witness :
    (fallbackEntry demoEmptySection).content ≠ [] :=
  c6_content_fallback [] [demoLoneHeading] (fallbackEntry demoEmptySection)
    (by rw [entries_demoLoneHeading]; exact List.mem_singleton.mpr rfl)
    (by decide)

end Seg

namespace Norm

theorem mergeLoop_cons (cur : Blk) (rest : List Blk) :
    mergeLoop (cur :: rest) = (absorb cur cur rest).1 :: mergeLoop (absorb cur cur rest).2 := by
  rw [mergeLoop]

theorem mergeLoop_nil : mergeLoop [] = [] := by
  rw [mergeLoop]

theorem absorb_cons (o a j : Blk) (js : List Blk) :
    absorb o a (j :: js) =
      if should_merge_blocks o j then absorb o (combineBlk a j) js else (a, j :: js) := rfl

theorem rdnAux_nil (seen : List Str) : rdnAux seen [] = [] := rfl

theorem rdnAux_cons (seen : List Str) (i : Blk) (rest : List Blk) :
    rdnAux seen (i :: rest) =
      if textKey i ∈ seen then rdnAux seen rest
      else if is_noise_text i.text then rdnAux seen rest
      else i :: rdnAux (textKey i :: seen) rest := rfl

theorem absorb_stop {o a j : Blk} {js : List Blk} (h : should_merge_blocks o j = false) :
    absorb o a (j :: js) = (a, j :: js) := by
  rw [absorb_cons, h]
  simp

theorem absorb_step {o a j : Blk} {js : List Blk} (h : should_merge_blocks o j = true) :
    absorb o a (j :: js) = absorb o (combineBlk a j) js := by
  rw [absorb_cons, h]
  simp

theorem should_merge_AX : should_merge_blocks demoBlkA demoBlkX = false := by
  have hf : ¬(|(10:ℚ) - 20| ≤ 2) := by
    rw [abs_le]
    norm_num
  simp [should_merge_blocks, demoBlkA, demoBlkX, hf]

theorem should_merge_XB : should_merge_blocks demoBlkX demoBlkB = false := by
  have hf : ¬(|(20:ℚ) - 11| ≤ 2) := by
    rw [abs_le]
    norm_num
  simp [should_merge_blocks, demoBlkX, demoBlkB, hf]

theorem should_merge_AB : should_merge_blocks demoBlkA demoBlkB = true := by
  have h1 : |(0:ℚ) - 20| ≤ 30 := by
    rw [abs_le]
    norm_num
  have h2 : |(10:ℚ) - 11| ≤ 2 := by
    rw [abs_le]
    norm_num
  simp [should_merge_blocks, demoBlkA, demoBlkB, h1, h2]
  constructor
  · norm_num
  · decide

theorem normalize_demo_once :
    normalizeBlocks [demoBlkA, demoBlkX, demoBlkB] = [demoBlkA, demoBlkB] := by
  unfold normalizeBlocks merge_text_fragments
  rw [if_neg (by decide)]
  rw [show sortS (fun a b =>
      decide (a.page < b.page ∨ (a.page = b.page ∧ a.y ≤ b.y)))
      [demoBlkA, demoBlkX, demoBlkB] = [demoBlkA, demoBlkX, demoBlkB] from by decide]
  rw [mergeLoop_cons, absorb_stop should_merge_AX]
  dsimp only
  rw [mergeLoop_cons, absorb_stop should_merge_XB]
  dsimp only
  rw [mergeLoop_cons]
  rw [show absorb demoBlkB demoBlkB [] = (demoBlkB, []) from rfl]
  dsimp only
  rw [mergeLoop_nil]
  decide

theorem normalize_demo_twice :
    normalizeBlocks [demoBlkA, demoBlkB] = [combineBlk demoBlkA demoBlkB] := by
  unfold normalizeBlocks merge_text_fragments
  rw [if_neg (by decide)]
  rw [show sortS (fun a b =>
      decide (a.page < b.page ∨ (a.page = b.page ∧ a.y ≤ b.y)))
      [demoBlkA, demoBlkB] = [demoBlkA, demoBlkB] from by decide]
  rw [mergeLoop_cons, absorb_step should_merge_AB]
  rw [show absorb demoBlkA (combineBlk demoBlkA demoBlkB) [] =
      (combineBlk demoBlkA demoBlkB, []) from rfl]
  dsimp only
  rw [mergeLoop_nil]
  have hnoise : is_noise_text (combineBlk demoBlkA demoBlkB).text = false := by decide
  unfold remove_duplicates_and_noise
  rw [rdnAux_cons]
  rw [if_neg (by simp : ¬ textKey (combineBlk demoBlkA demoBlkB) ∈ ([] : List Str))]
  rw [hnoise]
  simp only [Bool.false_eq_true, if_false]
  rw [rdnAux_nil]

/-- C9 counterexample: normalizing the three demo blocks removes the noise
block that separated two mergeable fragments; a second normalizer run merges
them, so the normalizer is not idempotent. -/
theorem c9_normalizer_not_idempotent_counterexample :
    normalizeBlocks (normalizeBlocks [demoBlkA, demoBlkX, demoBlkB]) ≠
      normalizeBlocks [demoBlkA, demoBlkX, demoBlkB] := by
  rw [normalize_demo_once, normalize_demo_twice]
  intro habs
  have hlen := congrArg List.length habs
  simp at hlen

theorem rdnAux_props (l : List Blk) :
    ∀ seen : List Str,
      (∀ b ∈ rdnAux seen l, is_noise_text b.text = false ∧ textKey b ∉ seen) ∧
      List.Pairwise (fun a b => textKey a ≠ textKey b) (rdnAux seen l) := by
  induction l with
  | nil =>
      intro seen
      exact ⟨fun b hb => absurd hb (by simp [rdnAux]), by simp [rdnAux]⟩
  | cons i rest ih =>
      intro seen
      by_cases h1 : textKey i ∈ seen
      · simpa [rdnAux, h1] using ih seen
      · by_cases h2 : is_noise_text i.text = true
        · simp only [rdnAux, if_neg h1, h2, if_true]
          exact ih seen
        · have h2f : is_noise_text i.text = false := by
            cases hb : is_noise_text i.text
            · rfl
            · exact absurd hb h2
          simp only [rdnAux, if_neg h1, h2f, Bool.false_eq_true, if_false]
          constructor
          · intro b hb
            rcases List.mem_cons.mp hb with hb1 | hb1
            · subst hb1
              exact ⟨h2f, h1⟩
            · have hprop := (ih (textKey i :: seen)).1 b hb1
              exact ⟨hprop.1, fun hc => hprop.2 (List.mem_cons_of_mem _ hc)⟩
          · refine List.pairwise_cons.mpr ⟨?_, (ih (textKey i :: seen)).2⟩
            intro b hb
            have hprop := (ih (textKey i :: seen)).1 b hb
            intro he
            exact hprop.2 (he ▸ List.mem_cons_self _ _)

theorem rdnAux_keeps (l : List Blk) :
    ∀ seen : List Str, (∀ b ∈ l, is_noise_text b.text = false) →
      (∀ b ∈ l, textKey b ∉ seen) →
      List.Pairwise (fun a b => textKey a ≠ textKey b) l →
      rdnAux seen l = l := by
  induction l with
  | nil => intro seen _ _ _; rfl
  | cons i rest ih =>
      intro seen hnoise hseen hpw
      have h1 : textKey i ∉ seen := hseen i (List.mem_cons_self i rest)
      have h2 : is_noise_text i.text = false := hnoise i (List.mem_cons_self i rest)
      rcases List.pairwise_cons.mp hpw with ⟨hhead, htail⟩
      simp only [rdnAux, if_neg h1, h2, Bool.false_eq_true, if_false]
      congr 1
      apply ih
      · intro b hb
        exact hnoise b (List.mem_cons_of_mem i hb)
      · intro b hb
        intro hc
        rcases List.mem_cons.mp hc with hc1 | hc1
        · exact (hhead b hb) hc1.symm
        · exact hseen b (List.mem_cons_of_mem i hb) hc1
      · exact htail

/-- C9 (amended): the duplicate-and-noise-removal step of the normalizer is
idempotent (its output has pairwise distinct text keys and no noise, so a
second run keeps everything); the full normalizer is not idempotent, because
removing a noise block can make two previously separated fragments mergeable
on the second run (see the counterexample). -/
theorem c9_dedup_idempotent (data : List Blk) :
    remove_duplicates_and_noise (remove_duplicates_and_noise data) =
      remove_duplicates_and_noise data := by
  unfold remove_duplicates_and_noise
  apply rdnAux_keeps
  · intro b hb
    exact ((rdnAux_props data []).1 b hb).1
  · intro b _
    simp
  · exact (rdnAux_props data []).2

end Norm

namespace Dedup1a

/-- C5: the retroactive discard of `remove_duplicates_and_fragments` only
removes the shorter text from the seen set, not from the output: with the
substring pair "ab" (font 10) and "abc" (font 9), both items survive, so the
output still contains two distinct texts one of which is a substring of the
other. -/
theorem c5_retroactive_discard_failing_input :
    remove_duplicates_and_fragments [demoItmShort, demoItmLong] =
      [demoItmShort, demoItmLong] ∧
    isSubstr (stripStr (lower demoItmShort.text)) (stripStr (lower demoItmLong.text)) = true ∧
    demoItmShort.text ≠ demoItmLong.text := by
  decide

end Dedup1a

namespace Title

theorem containsAny_of_mem {pats : List Str} {t : Str} (h : t ∈ pats) :
    containsAny pats t = true := by
  unfold containsAny
  rw [List.any_eq_true]
  exact ⟨t, h, isSubstr_iff_infix.mpr (List.infix_refl t)⟩

theorem mem_meaningful_iff_indicator {tl : Str}
    (hc : containsAny titleIndicators tl = true) :
    tl ∈ meaningfulSingleWords ↔ tl ∈ titleIndicators := by
  constructor
  · intro hm
    simp only [meaningfulSingleWords, List.map_cons, List.map_nil, List.mem_cons,
      List.mem_singleton] at hm
    rcases hm with rfl | rfl | rfl | rfl | rfl | rfl | rfl | rfl | hm
    · decide
    · decide
    · decide
    · decide
    · decide
    · decide
    · exact absurd hc (by decide)
    · exact absurd hc (by decide)
    · rcases hm with rfl | hm
      · exact absurd hc (by decide)
      · cases hm
  · intro h6
    simp only [titleIndicators, List.map_cons, List.map_nil, List.mem_cons,
      List.mem_singleton] at h6
    rcases h6 with rfl | rfl | rfl | rfl | rfl | h6
    · decide
    · decide
    · decide
    · decide
    · decide
    · rcases h6 with rfl | h6
      · decide
      · cases h6

/-- C3 counterexample: the two-word block "Project Overview" on page 1 at
the page's maximum font, matching no rejection pattern and containing the
title-ish term "overview", is rejected by `is_likely_title`: the two-word
branch claimed by the spec does not exist (after the short-text gate, only
the 3-to-15-word and one-word branches can accept). -/
theorem c3_two_word_counterexample :
    is_likely_title "Project Overview".toList 1 20 20 = false ∧
    wordCount "Project Overview".toList = 2 ∧
    containsAny titleIndicators (lower "Project Overview".toList) = true ∧
    nonTitlePattern (lower "Project Overview".toList) = false ∧
    containsAny addressIndicators (lower "Project Overview".toList) = false := by
  have hfont : ¬((20:ℚ) < 20 - 2) := by norm_num
  refine ⟨?_, by decide, by decide, by decide, by decide⟩
  unfold is_likely_title
  rw [if_neg (by simp : ¬((1:Nat) ≠ 1)), if_neg hfont]
  decide

/-- C3 (amended): for a page-1 block within 2 points of the maximum font
that matches no non-title rejection pattern and no address-like indicator,
`is_likely_title` accepts exactly the blocks with 3 to 15 words, or exactly
one word equal to one of overview, introduction, summary, guide, manual,
report.  Two-word blocks are always rejected, blocks beyond 15 words are
rejected, and analysis, proposal, specification are unreachable as one-word
titles because the short-text gate only passes the six indicator terms. -/
theorem c3_title_gate_characterization (text : Str) (page : Nat) (font maxFont : ℚ)
    (hp : page = 1) (hf : maxFont - 2 ≤ font)
    (hpat : nonTitlePattern (lower text) = false)
    (haddr : containsAny addressIndicators (lower text) = false) :
    is_likely_title text page font maxFont = true ↔
      (3 ≤ wordCount text ∧ wordCount text ≤ 15) ∨
      (wordCount text = 1 ∧ lower text ∈ titleIndicators) := by
  subst hp
  unfold is_likely_title
  rw [if_neg (by simp : ¬((1:Nat) ≠ 1))]
  rw [if_neg (not_lt.mpr hf)]
  rw [hpat, haddr]
  simp only [Bool.false_eq_true, if_false]
  by_cases hw3 : 3 ≤ wordCount text
  · have hgatef : ¬(wordCount text ≤ 2) := by omega
    by_cases hw15 : wordCount text ≤ 15
    · simp [hgatef, hw3, hw15]
    · have hne1 : wordCount text ≠ 1 := by omega
      simp [hgatef, hw3, hw15, hne1]
  · have hw2 : wordCount text ≤ 2 := by omega
    by_cases hind : containsAny titleIndicators (lower text) = true
    · by_cases hw1 : wordCount text = 1
      · simp [hw2, hind, hw3, hw1]
        exact mem_meaningful_iff_indicator hind
      · simp [hw2, hind, hw3, hw1]
    · have hindf : containsAny titleIndicators (lower text) = false := by
        cases hb : containsAny titleIndicators (lower text)
        · rfl
        · exact absurd hb hind
      simp only [hindf, Bool.not_false, Bool.and_true, decide_eq_true_eq, hw2, if_true]
      constructor
      · intro habs
        exact absurd habs (by simp)
      · rintro (⟨h3, _⟩ | ⟨_, hmem⟩)
        · omega
        · exact absurd (containsAny_of_mem hmem) (by simp [hindf])

/-- C3 witness: the three-word block "Annual Budget Report" instantiates the
amended characterization (and is accepted). -/
theorem c3_title_gate_witness :
    is_likely_title "Annual Budget Report".toList 1 20 20 = true ↔
      (3 ≤ wordCount "Annual Budget Report".toList ∧
        wordCount "Annual Budget Report".toList ≤ 15) ∨
      (wordCount "Annual Budget Report".toList = 1 ∧
        lower "Annual Budget Report".toList ∈ titleIndicators) :=
  c3_title_gate_characterization "Annual Budget Report".toList 1 20 20 rfl
    (by norm_num) (by decide) (by decide)

end Title

namespace StrOps

theorem idxOf_sortS_lt (le : α → α → Bool) [DecidableEq α] {l : List α} {a : α}
    (h : a ∈ l) : idxOf a (sortS le l) < l.length := by
  have h1 : a ∈ sortS le l := mem_sortS.mpr h
  have h2 := idxOf_lt_length h1
  rwa [sortS_length] at h2

theorem filter_ne_length_lt [DecidableEq α] {a : α} {l : List α} (h : a ∈ l) :
    (l.filter (fun x => decide (x ≠ a))).length < l.length := by
  induction l with
  | nil => cases h
  | cons b bs ih =>
      by_cases hb : b = a
      · subst hb
        have hstep : ((b :: bs).filter (fun x => decide (x ≠ b))) =
            bs.filter (fun x => decide (x ≠ b)) := by
          simp [List.filter_cons]
        rw [hstep]
        have hle := List.length_filter_le (fun x => decide (x ≠ b)) bs
        simp only [List.length_cons]
        omega
      · rcases List.mem_cons.mp h with h1 | h1
        · exact absurd h1.symm hb
        · have hstep : ((b :: bs).filter (fun x => decide (x ≠ a))) =
              b :: bs.filter (fun x => decide (x ≠ a)) := by
            simp [List.filter_cons, hb]
          rw [hstep]
          simp only [List.length_cons]
          exact Nat.succ_lt_succ (ih h1)

end StrOps

namespace HierB

theorem assignLevels_mem (keys : List (ℚ × Bool)) (k : ℚ × Bool) :
    assignLevels keys k ∈ ["H1".toList, "H2".toList, "H3".toList] := by
  unfold assignLevels
  by_cases h : idxOf k (sortS (fun a b => decide (b.1 ≤ a.1)) keys) < 3
  · rw [if_pos h]
    set i := idxOf k (sortS (fun a b => decide (b.1 ≤ a.1)) keys) with hi
    interval_cases i <;> decide
  · rw [if_neg h]
    decide

theorem determine_heading_level_mem (c : CandB) (keys : List (ℚ × Bool)) :
    determine_heading_level c keys ∈ ["H1".toList, "H2".toList, "H3".toList] := by
  unfold determine_heading_level
  by_cases h1 : groupKey c ∈ keys
  · rw [if_pos h1]
    exact assignLevels_mem keys (groupKey c)
  · rw [if_neg h1]
    by_cases h2 : (fontKey c, false) ∈ keys
    · rw [if_pos h2]
      exact assignLevels_mem keys (fontKey c, false)
    · rw [if_neg h2]
      by_cases h3 : (4:ℚ) ≤ c.heading_likelihood
      · rw [if_pos h3]; decide
      · rw [if_neg h3]
        by_cases h4 : (3:ℚ) ≤ c.heading_likelihood
        · rw [if_pos h4]; decide
        · rw [if_neg h4]; decide

theorem classifyB_levels (cands : List CandB) :
    (classify_headingsB cands).length = cands.length ∧
    ∀ e ∈ classify_headingsB cands,
      e.level ∈ ["H1".toList, "H2".toList, "H3".toList] := by
  constructor
  · unfold classify_headingsB classify_heading_hierarchy
    by_cases h : cands.isEmpty = true
    · have he : cands = [] := by simpa using h
      subst he
      simp [sortS]
    · rw [if_neg h, sortS_length, List.length_map, sortS_length]
  · intro e he
    unfold classify_headingsB at he
    have he2 := mem_sortS.mp he
    unfold classify_heading_hierarchy at he2
    by_cases h : cands.isEmpty = true
    · rw [if_pos h] at he2
      cases he2
    · rw [if_neg h] at he2
      rcases List.mem_map.mp he2 with ⟨c, _, hce⟩
      subst hce
      exact determine_heading_level_mem c _

end HierB

namespace HierA

theorem hLevelStrA_mem {n : Nat} (h1 : 1 ≤ n) (h4 : n ≤ 4) :
    hLevelStrA n ∈ ["H1".toList, "H2".toList, "H3".toList, "H4".toList] := by
  interval_cases n <;> decide

theorem mem_labelsInOrder_lt {cands : List CandA} {labels : List Nat}
    (hvalid : ∀ l ∈ labels, l < n_clusters cands) :
    ∀ x ∈ labelsInOrder (cands.zip labels), x < 4 := by
  intro x hx
  unfold labelsInOrder at hx
  rw [mem_dedupF] at hx
  rcases List.mem_map.mp hx with ⟨p, hp, hpe⟩
  rcases p with ⟨c, l⟩
  have hl : l ∈ labels := (List.of_mem_zip hp).2
  have hlt := hvalid l hl
  have hle : n_clusters cands ≤ 4 := min_le_left _ _
  have hxl : l = x := hpe
  omega

theorem labelsInOrder_len_le {cands : List CandA} {labels : List Nat}
    (hvalid : ∀ l ∈ labels, l < n_clusters cands) :
    (labelsInOrder (cands.zip labels)).length ≤ 4 :=
  length_le_of_nodup_lt (nodup_dedupF _) (mem_labelsInOrder_lt hvalid)

theorem assignNoTitle_mem {cands : List CandA} {labels : List Nat}
    (hvalid : ∀ l ∈ labels, l < n_clusters cands) {l : Nat}
    (hl : l ∈ labelsInOrder (cands.zip labels)) :
    assignNoTitle (cands.zip labels) l ∈
      ["H1".toList, "H2".toList, "H3".toList, "H4".toList] := by
  unfold assignNoTitle sortedLabels
  refine hLevelStrA_mem (by omega) ?_
  have hx := idxOf_sortS_lt (fun a b => decide (clusterAvgFont (cands.zip labels) b ≤
    clusterAvgFont (cands.zip labels) a)) hl
  have hy := labelsInOrder_len_le hvalid
  omega

theorem assignWithTitle_mem {cands : List CandA} {labels : List Nat}
    (hvalid : ∀ l ∈ labels, l < n_clusters cands) {tc l : Nat}
    (hl : l ∈ labelsInOrder (cands.zip labels))
    (htc : tc ∈ labelsInOrder (cands.zip labels)) :
    assignWithTitle (cands.zip labels) tc l ∈
      ["H1".toList, "H2".toList, "H3".toList, "H4".toList] := by
  unfold assignWithTitle
  by_cases he : l = tc
  · rw [if_pos he]
    decide
  · rw [if_neg he]
    unfold sortedLabels
    refine hLevelStrA_mem (by omega) ?_
    have hlf : l ∈ (labelsInOrder (cands.zip labels)).filter (fun x => decide (x ≠ tc)) :=
      List.mem_filter.mpr ⟨hl, by simpa using he⟩
    have hx := idxOf_sortS_lt (fun a b => decide (clusterAvgFont (cands.zip labels) b ≤
      clusterAvgFont (cands.zip labels) a)) hlf
    have hflt := filter_ne_length_lt htc
    have hy := labelsInOrder_len_le hvalid
    omega

theorem classifyA_levels (cands : List CandA) (labels : List Nat)
    (hlen : labels.length = cands.length)
    (hvalid : ∀ l ∈ labels, l < n_clusters cands) :
    (classify_headings_improved cands labels).length = cands.length ∧
    ∀ e ∈ classify_headings_improved cands labels,
      e.level ∈ ["H1".toList, "H2".toList, "H3".toList, "H4".toList] := by
  have hziplen : (cands.zip labels).length = cands.length := by
    rw [List.length_zip, hlen, min_self]
  rcases cands with _ | ⟨c1, _ | ⟨c2, rest⟩⟩
  · exact ⟨rfl, by intro e he; cases he⟩
  · refine ⟨rfl, ?_⟩
    intro e he
    rcases List.mem_singleton.mp he with rfl
    dsimp only
    decide
  · have hmemNoTitle : ∀ e ∈ ((c1 :: c2 :: rest).zip labels).map
        (fun p => (⟨assignNoTitle ((c1 :: c2 :: rest).zip labels) p.2, p.1.text, p.1.page⟩ : OutA)),
        e.level ∈ ["H1".toList, "H2".toList, "H3".toList, "H4".toList] := by
      intro e he
      rcases List.mem_map.mp he with ⟨p, hp, hpe⟩
      subst hpe
      have hl : p.2 ∈ labelsInOrder ((c1 :: c2 :: rest).zip labels) := by
        unfold labelsInOrder
        rw [mem_dedupF]
        exact List.mem_map_of_mem (fun p => p.2) hp
      exact assignNoTitle_mem hvalid hl
    simp only [classify_headings_improved]
    rcases hdt : detect_document_title (c1 :: c2 :: rest) with _ | t
    · dsimp only
      refine ⟨?_, ?_⟩
      · rw [List.length_map, hziplen]
      · exact hmemNoTitle
    · dsimp only
      rcases htc : titleClusterLabel ((c1 :: c2 :: rest).zip labels) t with _ | tc
      · dsimp only
        refine ⟨?_, ?_⟩
        · rw [List.length_map, hziplen]
        · exact hmemNoTitle
      · dsimp only
        have htcm : tc ∈ labelsInOrder ((c1 :: c2 :: rest).zip labels) := by
            unfold titleClusterLabel at htc
            rcases Option.map_eq_some'.mp htc with ⟨q, hq, hq2⟩
            have hqm := List.mem_of_find?_eq_some hq
            unfold labelsInOrder
            rw [mem_dedupF]
            rw [← hq2]
            exact List.mem_map_of_mem (fun p => p.2) hqm
        refine ⟨?_, ?_⟩
        · rw [List.length_map, hziplen]
        · intro e he
          rcases List.mem_map.mp he with ⟨p, hp, hpe⟩
          subst hpe
          have hl : p.2 ∈ labelsInOrder ((c1 :: c2 :: rest).zip labels) := by
            unfold labelsInOrder
            rw [mem_dedupF]
            exact List.mem_map_of_mem (fun p => p.2) hp
          exact assignWithTitle_mem hvalid hl htcm

end HierA

/-- C2 (amended): under the font/style grouping strategy every candidate of a
non-empty list receives exactly one level and it lies in {H1, H2, H3}; under
the semantic clustering strategy (labels supplied by the clustering
collaborator, one per candidate, each below k = min(4, max(2, distinct font
sizes))) every candidate receives exactly one level of the form H1-H4, and
H4 really occurs when k = 4 (see the counterexample), so the levels are not
confined to {H1, H2, H3}. -/
theorem c2_heading_level_assignment (candsB : List HierB.CandB)
    (candsA : List HierA.CandA) (labels : List Nat)
    (_hne : candsB ≠ [])
    (hlen : labels.length = candsA.length)
    (hvalid : ∀ l ∈ labels, l < HierA.n_clusters candsA) :
    ((HierB.classify_headingsB candsB).length = candsB.length ∧
      ∀ e ∈ HierB.classify_headingsB candsB,
        e.level ∈ ["H1".toList, "H2".toList, "H3".toList]) ∧
    ((HierA.classify_headings_improved candsA labels).length = candsA.length ∧
      ∀ e ∈ HierA.classify_headings_improved candsA labels,
        e.level ∈ ["H1".toList, "H2".toList, "H3".toList, "H4".toList]) :=
  ⟨HierB.classifyB_levels candsB, HierA.classifyA_levels candsA labels hlen hvalid⟩

/-- C2 witness: one font/style candidate and the four-cluster demo input. -/
theorem c2_heading_level_assignment_witness :
    ((HierB.classify_headingsB [⟨"Title".toList, 1, 12, false, 5, 0⟩]).length =
        ([⟨"Title".toList, 1, 12, false, 5, 0⟩] : List HierB.CandB).length ∧
      ∀ e ∈ HierB.classify_headingsB [⟨"Title".toList, 1, 12, false, 5, 0⟩],
        e.level ∈ ["H1".toList, "H2".toList, "H3".toList]) ∧
    ((HierA.classify_headings_improved HierA.demoCandsA HierA.demoLabelsA).length =
        HierA.demoCandsA.length ∧
      ∀ e ∈ HierA.classify_headings_improved HierA.demoCandsA HierA.demoLabelsA,
        e.level ∈ ["H1".toList, "H2".toList, "H3".toList, "H4".toList]) :=
  c2_heading_level_assignment [⟨"Title".toList, 1, 12, false, 5, 0⟩]
    HierA.demoCandsA HierA.demoLabelsA (by simp) rfl (by decide)

namespace HierA

theorem avg_demo_0 : clusterAvgFont demoPairsA 0 = 10 := by
  unfold clusterAvgFont
  rw [show (demoPairsA.filter (fun p => decide (p.2 = 0))).map (fun p => p.1.font_size) =
    [(10:ℚ)] from by decide]
  norm_num

theorem avg_demo_1 : clusterAvgFont demoPairsA 1 = 11 := by
  unfold clusterAvgFont
  rw [show (demoPairsA.filter (fun p => decide (p.2 = 1))).map (fun p => p.1.font_size) =
    [(11:ℚ)] from by decide]
  norm_num

theorem avg_demo_2 : clusterAvgFont demoPairsA 2 = 12 := by
  unfold clusterAvgFont
  rw [show (demoPairsA.filter (fun p => decide (p.2 = 2))).map (fun p => p.1.font_size) =
    [(12:ℚ)] from by decide]
  norm_num

theorem avg_demo_3 : clusterAvgFont demoPairsA 3 = 13 := by
  unfold clusterAvgFont
  rw [show (demoPairsA.filter (fun p => decide (p.2 = 3))).map (fun p => p.1.font_size) =
    [(13:ℚ)] from by decide]
  norm_num

theorem cmp_demo_23 : decide (clusterAvgFont demoPairsA 3 ≤ clusterAvgFont demoPairsA 2) = false := by
  rw [avg_demo_3, avg_demo_2]; rfl

theorem cmp_demo_13 : decide (clusterAvgFont demoPairsA 3 ≤ clusterAvgFont demoPairsA 1) = false := by
  rw [avg_demo_3, avg_demo_1]; rfl

theorem cmp_demo_12 : decide (clusterAvgFont demoPairsA 2 ≤ clusterAvgFont demoPairsA 1) = false := by
  rw [avg_demo_2, avg_demo_1]; rfl

theorem cmp_demo_03 : decide (clusterAvgFont demoPairsA 3 ≤ clusterAvgFont demoPairsA 0) = false := by
  rw [avg_demo_3, avg_demo_0]; rfl

theorem cmp_demo_02 : decide (clusterAvgFont demoPairsA 2 ≤ clusterAvgFont demoPairsA 0) = false := by
  rw [avg_demo_2, avg_demo_0]; rfl

theorem cmp_demo_01 : decide (clusterAvgFont demoPairsA 1 ≤ clusterAvgFont demoPairsA 0) = false := by
  rw [avg_demo_1, avg_demo_0]; rfl

theorem sorted_demo : sortedLabels demoPairsA [0, 1, 2, 3] = [3, 2, 1, 0] := by
  unfold sortedLabels sortS
  simp only [List.foldr, insertS, cmp_demo_23, cmp_demo_13, cmp_demo_12, cmp_demo_03,
    cmp_demo_02, cmp_demo_01, Bool.false_eq_true, if_false]

theorem assign_demo_0 : assignNoTitle demoPairsA 0 = "H4".toList := by
  unfold assignNoTitle
  rw [show labelsInOrder demoPairsA = [0, 1, 2, 3] from by decide]
  rw [sorted_demo]
  decide

theorem assign_demo_1 : assignNoTitle demoPairsA 1 = "H3".toList := by
  unfold assignNoTitle
  rw [show labelsInOrder demoPairsA = [0, 1, 2, 3] from by decide]
  rw [sorted_demo]
  decide

theorem assign_demo_2 : assignNoTitle demoPairsA 2 = "H2".toList := by
  unfold assignNoTitle
  rw [show labelsInOrder demoPairsA = [0, 1, 2, 3] from by decide]
  rw [sorted_demo]
  decide

theorem assign_demo_3 : assignNoTitle demoPairsA 3 = "H1".toList := by
  unfold assignNoTitle
  rw [show labelsInOrder demoPairsA = [0, 1, 2, 3] from by decide]
  rw [sorted_demo]
  decide

end HierA

/-- C2 counterexample: with four page-2 candidates carrying four distinct
font sizes, k = min(4, max(2, 4)) = 4 clusters and one valid label per
candidate, the semantic strategy assigns the smallest-font cluster the level
"H4", which is outside {H1, H2, H3}. -/
theorem c2_semantic_h4_counterexample :
    (HierA.classify_headings_improved HierA.demoCandsA HierA.demoLabelsA).map
        (fun e => e.level) =
      ["H4".toList, "H3".toList, "H2".toList, "H1".toList] ∧
    ("H4".toList ∉ ["H1".toList, "H2".toList, "H3".toList]) ∧
    HierA.demoLabelsA.length = HierA.demoCandsA.length ∧
    ∀ l ∈ HierA.demoLabelsA, l < HierA.n_clusters HierA.demoCandsA := by
  refine ⟨?_, by decide, rfl, by decide⟩
  have hfull : HierA.classify_headings_improved HierA.demoCandsA HierA.demoLabelsA =
      [⟨HierA.assignNoTitle HierA.demoPairsA 0, "alpha one".toList, 2⟩,
       ⟨HierA.assignNoTitle HierA.demoPairsA 1, "beta two".toList, 2⟩,
       ⟨HierA.assignNoTitle HierA.demoPairsA 2, "gamma three".toList, 2⟩,
       ⟨HierA.assignNoTitle HierA.demoPairsA 3, "delta four".toList, 2⟩] := rfl
  rw [hfull]
  simp only [List.map_cons, List.map_nil]
  rw [HierA.assign_demo_0, HierA.assign_demo_1, HierA.assign_demo_2, HierA.assign_demo_3]
